import Mathlib

/-!
Verification of the quantcharts polyline converters and chart-view mouse
interaction (`src/qc/dataproc.py`, `src/qc/experiments/plotpyex.py`).

Numeric buffers are modelled as lists of rationals (the Python code uses
float64 arrays; the claims under study are structural, so exact arithmetic
stands in for floats).  NumPy strided-slice assignment — including its
scalar broadcasting rule and its shape-mismatch errors — is modelled
explicitly, since the converters rely on it both for their normal
behaviour and for their failure behaviour.
-/

namespace QuantCharts

/-- Normalised exclusive stop of a Python slice `[start:stop:step]` (for
`step > 0`) over an array of length `len`: a negative stop counts from the
end, and the result is clamped to `[0, len]`. -/
def sliceStop (stop : Int) (len : Nat) : Nat :=
  if stop < 0 then min (stop + len).toNat len else min stop.toNat len

/-- Number of elements selected by the slice `[start:stop:step]`. -/
def sliceCount (start : Nat) (stop : Int) (step len : Nat) : Nat :=
  (sliceStop stop len - start + (step - 1)) / step

/-- Indices selected by the slice `[start:stop:step]` over an array of
length `len`. -/
def sliceIndices (start : Nat) (stop : Int) (step len : Nat) : List Nat :=
  (List.range (sliceCount start stop step len)).map (fun k => start + step * k)

/-- Write the (index, value) pairs into the buffer in order
(`mem[i] = v` for each pair). -/
def setMany (mem : List ℚ) (ps : List (Nat × ℚ)) : List ℚ :=
  ps.foldl (fun m p => m.set p.1 p.2) mem

/-- NumPy slice assignment `mem[slice] = vals`: succeeds when the value
count matches the slice length, broadcasts a single value over the whole
slice, and raises (`none`) on any other shape mismatch. -/
def assignSlice (mem : List ℚ) (idxs : List Nat) (vals : List ℚ) : Option (List ℚ) :=
  if vals.length = idxs.length then some (setMany mem (idxs.zip vals))
  else if vals.length = 1 then
    some (setMany mem (idxs.zip (List.replicate idxs.length (vals.headD 0))))
  else none

/-- Slicing a strided view again (`mem[s1][s2] = ...` writes through both
views): compose the outer index list with the inner one. -/
def composeIdx (outer inner : List Nat) : List Nat :=
  inner.map (fun j => outer.getD j 0)

/-- Model of `QPolygonF(size)` followed by `pointer.setsize` / `np.frombuffer`:
the point storage reinterpreted as a flat buffer of `2*size`
zero-initialised float entries; a negative size cannot be constructed. -/
def QPolygonF_mk (size : Int) : Option (List ℚ) :=
  if size < 0 then none else some (List.replicate (2 * size.toNat) 0)

/-- A polyline: point count and flat interleaved coordinate buffer. -/
structure Polyline where
  size : Nat
  buffer : List ℚ
  deriving DecidableEq

/-- Python `series_to_polyline` (plotpyex.py, lines 24–37): no length check;
allocates the point buffer and slice-assigns the x and y coordinates at
even and odd positions respectively. -/
def series_to_polyline (xdata ydata : List ℚ) : Option Polyline := do
  let size := xdata.length
  let mem0 ← QPolygonF_mk size
  let mem1 ← assignSlice mem0 (sliceIndices 0 (((size : Int) - 1) * 2 + 1) 2 mem0.length) xdata
  let mem2 ← assignSlice mem1 (sliceIndices 1 (((size : Int) - 1) * 2 + 2) 2 mem0.length) ydata
  some ⟨size, mem2⟩

/-- Python `to_polyline` (dataproc.py, lines 5–25): the same construction,
preceded by the explicit length check that raises `ValueError` on
mismatch. -/
def to_polyline (xbar ybar : List ℚ) : Option Polyline := do
  let nx := xbar.length
  if nx ≠ ybar.length then none
  else do
    let mem0 ← QPolygonF_mk nx
    let mem1 ← assignSlice mem0 (sliceIndices 0 (((nx : Int) - 1) * 2 + 1) 2 mem0.length) xbar
    let mem2 ← assignSlice mem1 (sliceIndices 1 (((nx : Int) - 1) * 2 + 2) 2 mem0.length) ybar
    some ⟨nx, mem2⟩

/-- Python `series_to_polystep` (plotpyex.py, lines 40–58): `2*nx - 1` points;
four strided double-view assignments build the staircase interleaving. -/
def series_to_polystep (xdata ydata : List ℚ) : Option Polyline := do
  let nx := xdata.length
  let size : Int := 2 * (nx : Int) - 1
  let mem0 ← QPolygonF_mk size
  let xsl := sliceIndices 0 ((size - 1) * 2 + 1) 2 mem0.length
  let ysl := sliceIndices 1 ((size - 1) * 2 + 2) 2 mem0.length
  let mem1 ← assignSlice mem0 (composeIdx xsl (sliceIndices 0 (xsl.length : Int) 2 xsl.length)) xdata
  let mem2 ← assignSlice mem1 (composeIdx ysl (sliceIndices 0 (ysl.length : Int) 2 ysl.length)) ydata
  let mem3 ← assignSlice mem2 (composeIdx xsl (sliceIndices 1 (xsl.length : Int) 2 xsl.length)) (xdata.drop 1)
  let mem4 ← assignSlice mem3 (composeIdx ysl (sliceIndices 1 (ysl.length : Int) 2 ysl.length)) (ydata.dropLast)
  some ⟨size.toNat, mem4⟩

/-- The polyline buffer produced by `series_to_polyline` on equal-length
inputs: x written at the even offsets, y at the odd offsets. -/
def interleaveBuf (x y : List ℚ) : List ℚ :=
  setMany (setMany (List.replicate (2 * x.length) 0)
      (((List.range x.length).map (fun k => 0 + 2 * k)).zip x))
    (((List.range x.length).map (fun k => 1 + 2 * k)).zip y)

/-- The buffer produced by the four strided writes of
`series_to_polystep` (for nonempty input): x at offsets 4k, y at offsets
4k+1, `x[1:]` at offsets 4k+2, `y[:-1]` at offsets 4k+3. -/
def stepBuf (x y : List ℚ) : List ℚ :=
  setMany (setMany (setMany (setMany (List.replicate (2 * (2 * x.length - 1)) 0)
      (((List.range x.length).map (fun k => 0 + 4 * k)).zip x))
      (((List.range x.length).map (fun k => 1 + 4 * k)).zip y))
      (((List.range (x.length - 1)).map (fun k => 2 + 4 * k)).zip (x.drop 1)))
      (((List.range (x.length - 1)).map (fun k => 3 + 4 * k)).zip y.dropLast)

/-! ## Mouse interaction model (plotpyex.py) -/

/-- Class `MouseTracker` (plotpyex.py, lines 61–89).  `_x`/`_y` start as
`None` and are only given values by `start`/`track`; integer arithmetic
on `None` would raise, hence the `Option`-valued position. -/
structure MouseTracker where
  total_dx : Int
  total_dy : Int
  pos : Option (Int × Int)
  deriving DecidableEq

def MouseTracker.init : MouseTracker := ⟨0, 0, none⟩

def MouseTracker.start (t : MouseTracker) (ex ey : Int) : MouseTracker :=
  { t with pos := some (ex, ey) }

/-- Method `track`: returns the per-event delta together with the updated
tracker, or `none` when `start` has never run (`int - None` raises). -/
def MouseTracker.track (t : MouseTracker) (ex ey : Int) :
    Option ((Int × Int) × MouseTracker) :=
  match t.pos with
  | none => none
  | some (x0, y0) =>
    let dx := ex - x0
    let dy := ey - y0
    some ((dx, dy),
      { total_dx := t.total_dx + dx, total_dy := t.total_dy + dy,
        pos := some (ex, ey) })

def MouseTracker.totals (t : MouseTracker) : Int × Int := (t.total_dx, t.total_dy)

def MouseTracker.reset (t : MouseTracker) : MouseTracker :=
  { t with total_dx := 0, total_dy := 0 }

/-- Run a sequence of `track` calls, collecting the returned deltas. -/
def MouseTracker.trackAll (t : MouseTracker) :
    List (Int × Int) → Option (List (Int × Int) × MouseTracker)
  | [] => some ([], t)
  | p :: es =>
    match t.track p.1 p.2 with
    | none => none
    | some (d, t1) =>
      match t1.trackAll es with
      | none => none
      | some (ds, tf) => some (d :: ds, tf)

/-- A chart axis with its displayed range (`axis.min()` / `axis.max()`). -/
structure Axis where
  min : ℚ
  max : ℚ
  deriving DecidableEq

/-- Class `TestChart` (plotpyex.py, lines 92–117) together with the `QChart`
state the handlers touch: the two axes and the accumulated `scroll`
offset.  The recorded `_x_min` … `_y_max` fields start as `None`. -/
structure TestChart where
  axisX : Axis
  axisY : Axis
  x_min : Option ℚ
  x_max : Option ℚ
  y_min : Option ℚ
  y_max : Option ℚ
  scroll_x : Int
  scroll_y : Int
  deriving DecidableEq

/-- Method `QChart.scroll`, modelled as accumulating the requested offsets. -/
def TestChart.scroll (c : TestChart) (dx dy : Int) : TestChart :=
  { c with scroll_x := c.scroll_x + dx, scroll_y := c.scroll_y + dy }

/-- Method `TestChart.createDefaultAxes` (lines 102–117): the base class
recomputes both axes from the series data (`ax`, `ay` here); the
override then records their ranges in `_x_min` … `_y_max`.  The
grid-line styling calls do not touch the modelled state. -/
def TestChart.createDefaultAxes (c : TestChart) (ax ay : Axis) : TestChart :=
  { c with
    axisX := ax,
    axisY := ay,
    x_min := some ax.min,
    x_max := some ax.max,
    y_min := some ay.min,
    y_max := some ay.max }

inductive MouseButton
  | left
  | right
  | middle
  deriving DecidableEq

/-- Keyboard modifier state delivered with a mouse event:
`event.modifiers()` is a flag set, which `mousePressEvent` compares for
equality with `Qt.ShiftModifier`. -/
structure Modifiers where
  shift : Bool
  ctrl : Bool
  alt : Bool
  deriving DecidableEq

/-- The modifier state that equals `Qt.ShiftModifier`: shift alone. -/
def Modifiers.shiftOnly : Modifiers := ⟨true, false, false⟩

structure MouseEvent where
  button : MouseButton
  modifiers : Modifiers
  x : Int
  y : Int
  deriving DecidableEq

/-- Class `TestChartView` (plotpyex.py, lines 120–189): the chart plus the
interaction state.  `setRubberBand` is modelled by the
`rubber_band_active` flag. -/
structure TestChartView where
  chart : TestChart
  mouse_tracker : MouseTracker
  rubber_band_active : Bool
  pan_active : Bool
  zoom_active : Bool
  deriving DecidableEq

/-- Constructor `TestChartView.__init__` (lines 121–131): fresh tracker, rubber band
disabled, both interaction flags off. -/
def TestChartView.init (chart : TestChart) : TestChartView :=
  ⟨chart, MouseTracker.init, false, false, false⟩

/-- Handler `mousePressEvent` (lines 141–154).  The base-class handler only
feeds the toolkit rubber band and does not touch the modelled state. -/
def TestChartView.mousePressEvent (s : TestChartView) (e : MouseEvent) : TestChartView :=
  if e.button = MouseButton.left then
    if e.modifiers = Modifiers.shiftOnly then
      { s with rubber_band_active := true }
    else
      { s with mouse_tracker := s.mouse_tracker.start e.x e.y, pan_active := true }
  else if e.button = MouseButton.right then
    { s with mouse_tracker := s.mouse_tracker.start e.x e.y, zoom_active := true }
  else s

/-- Handler `mouseReleaseEvent` (lines 156–172).  On a middle-button release the
recorded initial ranges are restored via `setRange`; passing the initial
`None` values there would raise, hence the `Option` result.  The
base-class release (which only performs rubber-band zoom on a *left*
release) acts on toolkit state outside the model.  Afterwards the rubber
band is disabled if active and both interaction flags are cleared. -/
def TestChartView.mouseReleaseEvent (s : TestChartView) (e : MouseEvent) :
    Option TestChartView := do
  let s1 ←
    if e.button = MouseButton.middle then
      match s.chart.x_min, s.chart.x_max, s.chart.y_min, s.chart.y_max with
      | some a, some b, some c, some d =>
        some { s with chart := { s.chart with axisX := ⟨a, b⟩, axisY := ⟨c, d⟩ } }
      | _, _, _, _ => none
    else some s
  let s2 := if s1.rubber_band_active then { s1 with rubber_band_active := false } else s1
  some { s2 with pan_active := false, zoom_active := false }

/-- Model of `np.sign(delta) * min(abs(delta), 10)` (line 184). -/
def clampDelta (d : Int) : Int := d.sign * (min d.natAbs 10 : Nat)

/-- One axis update of the right-drag zoom (lines 182–187):
`shift = (tf - t0) * delta * 0.01` after clamping, then
`setMin(t0 + shift)`, `setMax(tf - shift)`. -/
def zoomAxis (a : Axis) (delta : Int) : Axis :=
  let t0 := a.min
  let tf := a.max
  let d := clampDelta delta
  let shift : ℚ := (tf - t0) * (d : ℚ) * (1 / 100)
  ⟨t0 + shift, tf - shift⟩

/-- Handler `mouseMoveEvent` (lines 174–189): pan takes precedence over zoom;
the zoom branch applies `zoomAxis` with delta `dx` to the X axis and
`-dy` to the Y axis.  The base-class move handler does not touch the
modelled state. -/
def TestChartView.mouseMoveEvent (s : TestChartView) (e : MouseEvent) :
    Option TestChartView :=
  if s.pan_active then
    match s.mouse_tracker.track e.x e.y with
    | none => none
    | some ((dx, dy), tr) =>
      some { s with mouse_tracker := tr, chart := s.chart.scroll (-dx) dy }
  else if s.zoom_active then
    match s.mouse_tracker.track e.x e.y with
    | none => none
    | some ((dx, dy), tr) =>
      some { s with
        mouse_tracker := tr,
        chart := { s.chart with
          axisX := zoomAxis s.chart.axisX dx,
          axisY := zoomAxis s.chart.axisY (-dy) } }
  else some s

inductive EventKind
  | press
  | release
  | move
  deriving DecidableEq

/-- Dispatch one mouse event to the corresponding handler. -/
def TestChartView.processEvent (s : TestChartView) (k : EventKind) (e : MouseEvent) :
    Option TestChartView :=
  match k with
  | EventKind.press => some (s.mousePressEvent e)
  | EventKind.release => s.mouseReleaseEvent e
  | EventKind.move => s.mouseMoveEvent e

/-- Run a sequence of mouse events through the view. -/
def TestChartView.processEvents (s : TestChartView) :
    List (EventKind × MouseEvent) → Option TestChartView
  | [] => some s
  | ke :: es =>
    match s.processEvent ke.1 ke.2 with
    | none => none
    | some s1 => s1.processEvents es

/-- Class `TestWindow` (plotpyex.py, lines 192–237): the state its data path
touches — the curve count and the polylines handed to the series.  (The
chart's axis bookkeeping is driven by the toolkit and modelled with
`TestChart` separately.) -/
structure TestWindow where
  ncurves : Nat
  series : List Polyline
  deriving DecidableEq

/-- Method `add_data` (lines 205–220): replaces the new line series' points
with `series_to_polystep(xdata, ydata)` and appends the series; the
color and OpenGL settings do not affect the modelled state. -/
def TestWindow.add_data (w : TestWindow) (xdata ydata : List ℚ) : Option TestWindow :=
  match series_to_polystep xdata ydata with
  | none => none
  | some p => some { ncurves := w.ncurves + 1, series := w.series ++ [p] }

/-! ## Concrete fixtures used by the witnesses -/

def sampleAxis : Axis := ⟨0, 10⟩

def sampleChart0 : TestChart := ⟨⟨0, 1⟩, ⟨0, 1⟩, none, none, none, none, 0, 0⟩

def sampleView : TestChartView :=
  TestChartView.init (sampleChart0.createDefaultAxes sampleAxis sampleAxis)

def sampleMods : Modifiers := ⟨false, false, false⟩

/-- A short pan run: left press at (0, 0), then a move to (3, 4). -/
def demoEvents : List (EventKind × MouseEvent) :=
  [(EventKind.press, ⟨MouseButton.left, sampleMods, 0, 0⟩),
    (EventKind.move, ⟨MouseButton.left, sampleMods, 3, 4⟩)]

/-- The state after running `demoEvents` from `sampleView`. -/
def demoState : TestChartView :=
  { chart := {
      axisX := sampleAxis,
      axisY := sampleAxis,
      x_min := some 0,
      x_max := some 10,
      y_min := some 0,
      y_max := some 10,
      scroll_x := -3,
      scroll_y := 4 },
    mouse_tracker := ⟨3, 4, some (3, 4)⟩,
    rubber_band_active := false,
    pan_active := true,
    zoom_active := false }

/-! ### Buffer-write lemmas -/

lemma setMany_cons (mem : List ℚ) (p : Nat × ℚ) (ps : List (Nat × ℚ)) :
    setMany mem (p :: ps) = setMany (mem.set p.1 p.2) ps := rfl

lemma setMany_length (ps : List (Nat × ℚ)) (mem : List ℚ) :
    (setMany mem ps).length = mem.length := by
  induction ps generalizing mem with
  | nil => rfl
  | cons p ps ih => rw [setMany_cons, ih, List.length_set]

lemma setMany_getElem?_notMem (ps : List (Nat × ℚ)) (mem : List ℚ) (j : Nat)
    (h : ∀ p ∈ ps, p.1 ≠ j) :
    (setMany mem ps)[j]? = mem[j]? := by
  induction ps generalizing mem with
  | nil => rfl
  | cons p ps ih =>
    rw [setMany_cons, ih _ (fun q hq => h q (List.mem_cons_of_mem _ hq))]
    exact List.getElem?_set_ne (h p (List.mem_cons_self _ _))

lemma setMany_zip_getElem? (idxs : List Nat) (vals mem : List ℚ)
    (hnd : idxs.Nodup) (k : Nat) (hk : k < idxs.length) (hkv : k < vals.length)
    (hmem : idxs.getD k 0 < mem.length) :
    (setMany mem (idxs.zip vals))[idxs.getD k 0]? = vals[k]? := by
  induction idxs generalizing mem vals k with
  | nil => exact absurd hk (by simp)
  | cons i is ih =>
    cases vals with
    | nil => exact absurd hkv (by simp)
    | cons v vs =>
      rw [List.zip_cons_cons, setMany_cons]
      cases k with
      | zero =>
        have hi : i ∉ is := (List.nodup_cons.mp hnd).1
        have hne : ∀ p ∈ is.zip vs, p.1 ≠ i := by
          intro p hp hcontra
          exact hi (hcontra ▸ (List.of_mem_zip ((Prod.mk.eta (p := p)) ▸ hp)).1)
        rw [List.getD_cons_zero] at hmem ⊢
        rw [setMany_getElem?_notMem _ _ _ hne]
        simpa using List.getElem?_set_self hmem
      | succ k =>
        rw [List.getD_cons_succ] at hmem ⊢
        have := ih vs (mem.set i v) (List.nodup_cons.mp hnd).2 k
          (by simpa using hk) (by simpa using hkv)
          (by rw [List.length_set]; exact hmem)
        simpa using this

/-! ### Affine index lists (what the strided slices evaluate to) -/

lemma length_affine (a s c : Nat) :
    ((List.range c).map (fun k => a + s * k)).length = c := by simp

lemma getD_affine (a s c k : Nat) (hk : k < c) :
    ((List.range c).map (fun k => a + s * k)).getD k 0 = a + s * k := by
  rw [List.getD_eq_getElem?_getD, List.getElem?_map, List.getElem?_range hk]
  rfl

lemma nodup_affine (a s c : Nat) (hs : 0 < s) :
    ((List.range c).map (fun k => a + s * k)).Nodup := by
  refine List.Nodup.map ?_ (List.nodup_range c)
  intro u v huv
  have h1 : s * u = s * v := Nat.add_left_cancel huv
  exact Nat.eq_of_mul_eq_mul_left hs h1

lemma mem_affine {m a s c : Nat} :
    m ∈ (List.range c).map (fun k => a + s * k) ↔ ∃ k, k < c ∧ m = a + s * k := by
  simp only [List.mem_map, List.mem_range]
  constructor
  · rintro ⟨k, hk, rfl⟩; exact ⟨k, hk, rfl⟩
  · rintro ⟨k, hk, rfl⟩; exact ⟨k, hk, rfl⟩

lemma composeIdx_affine (a1 s1 c1 a2 s2 c2 : Nat) (h : ∀ k, k < c2 → a2 + s2 * k < c1) :
    composeIdx ((List.range c1).map (fun k => a1 + s1 * k))
        ((List.range c2).map (fun k => a2 + s2 * k))
      = (List.range c2).map (fun k => (a1 + s1 * a2) + s1 * s2 * k) := by
  unfold composeIdx
  rw [List.map_map]
  refine List.map_congr_left ?_
  intro k hk
  rw [List.mem_range] at hk
  show ((List.range c1).map (fun k => a1 + s1 * k)).getD (a2 + s2 * k) 0 = _
  rw [getD_affine _ _ _ _ (h k hk)]
  ring

/-! ### Evaluating the slice index lists used by the converters -/

lemma sliceCount_even (n : Nat) :
    sliceCount 0 (((n : Int) - 1) * 2 + 1) 2 (2 * n) = n := by
  unfold sliceCount sliceStop
  split <;> simp only [Nat.min_def] <;> split <;> omega

lemma sliceCount_odd (n : Nat) :
    sliceCount 1 (((n : Int) - 1) * 2 + 2) 2 (2 * n) = n := by
  unfold sliceCount sliceStop
  split <;> simp only [Nat.min_def] <;> split <;> omega

lemma sliceIndices_even (n : Nat) :
    sliceIndices 0 (((n : Int) - 1) * 2 + 1) 2 (2 * n)
      = (List.range n).map (fun k => 0 + 2 * k) := by
  unfold sliceIndices
  rw [sliceCount_even]

lemma sliceIndices_odd (n : Nat) :
    sliceIndices 1 (((n : Int) - 1) * 2 + 2) 2 (2 * n)
      = (List.range n).map (fun k => 1 + 2 * k) := by
  unfold sliceIndices
  rw [sliceCount_odd]

lemma sliceCount_view_even (v : Nat) :
    sliceCount 0 (v : Int) 2 v = (v + 1) / 2 := by
  unfold sliceCount sliceStop
  split <;> simp only [Nat.min_def] <;> split <;> omega

lemma sliceCount_view_odd (v : Nat) :
    sliceCount 1 (v : Int) 2 v = v / 2 := by
  unfold sliceCount sliceStop
  split <;> simp only [Nat.min_def] <;> split <;> omega

lemma sliceIndices_view_even (v : Nat) :
    sliceIndices 0 (v : Int) 2 v = (List.range ((v + 1) / 2)).map (fun k => 0 + 2 * k) := by
  unfold sliceIndices
  rw [sliceCount_view_even]

lemma sliceIndices_view_odd (v : Nat) :
    sliceIndices 1 (v : Int) 2 v = (List.range (v / 2)).map (fun k => 1 + 2 * k) := by
  unfold sliceIndices
  rw [sliceCount_view_odd]

/-! ### Reduction lemmas for the converters -/

lemma QPolygonF_mk_natCast (n : Nat) :
    QPolygonF_mk (n : Int) = some (List.replicate (2 * n) 0) := by
  unfold QPolygonF_mk
  rw [if_neg (by omega)]
  have h : ((n : Int)).toNat = n := by omega
  rw [h]

lemma assignSlice_eq (mem : List ℚ) (idxs : List Nat) (vals : List ℚ)
    (h : vals.length = idxs.length) :
    assignSlice mem idxs vals = some (setMany mem (idxs.zip vals)) := by
  unfold assignSlice; rw [if_pos h]

lemma assignSlice_bcast (mem : List ℚ) (idxs : List Nat) (vals : List ℚ)
    (h1 : vals.length = 1) (h2 : vals.length ≠ idxs.length) :
    assignSlice mem idxs vals
      = some (setMany mem (idxs.zip (List.replicate idxs.length (vals.headD 0)))) := by
  unfold assignSlice; rw [if_neg h2, if_pos h1]

lemma assignSlice_none (mem : List ℚ) (idxs : List Nat) (vals : List ℚ)
    (h1 : vals.length ≠ idxs.length) (h2 : vals.length ≠ 1) :
    assignSlice mem idxs vals = none := by
  unfold assignSlice; rw [if_neg h1, if_neg h2]

lemma series_to_polyline_eval (x y : List ℚ) (h : y.length = x.length) :
    series_to_polyline x y = some ⟨x.length, interleaveBuf x y⟩ := by
  unfold series_to_polyline
  simp only [QPolygonF_mk_natCast, Option.bind_eq_bind, Option.some_bind,
    List.length_replicate, sliceIndices_even, sliceIndices_odd]
  rw [
    assignSlice_eq _ _ _ (by rw [length_affine]),
    Option.some_bind,
    assignSlice_eq _ _ _ (by rw [length_affine]; exact h),
    Option.some_bind]
  rfl

lemma interleaveBuf_length (x y : List ℚ) :
    (interleaveBuf x y).length = 2 * x.length := by
  unfold interleaveBuf
  rw [setMany_length, setMany_length, List.length_replicate]

lemma interleaveBuf_even (x y : List ℚ) (i : Nat) (hi : i < x.length) :
    (interleaveBuf x y)[2 * i]? = x[i]? := by
  unfold interleaveBuf
  rw [setMany_getElem?_notMem]
  · have h := setMany_zip_getElem? ((List.range x.length).map (fun k => 0 + 2 * k)) x
      (List.replicate (2 * x.length) 0) (nodup_affine 0 2 _ (by omega)) i
      (by rw [length_affine]; exact hi) hi
      (by rw [getD_affine _ _ _ _ hi, List.length_replicate]; omega)
    rw [getD_affine _ _ _ _ hi] at h
    simpa using h
  · rintro ⟨u, w⟩ hp
    have hu := (List.of_mem_zip hp).1
    rw [mem_affine] at hu
    obtain ⟨k, hk, rfl⟩ := hu
    show 1 + 2 * k ≠ 2 * i
    omega

lemma interleaveBuf_odd (x y : List ℚ) (h : y.length = x.length) (i : Nat)
    (hi : i < x.length) :
    (interleaveBuf x y)[2 * i + 1]? = y[i]? := by
  unfold interleaveBuf
  have h2 := setMany_zip_getElem? ((List.range x.length).map (fun k => 1 + 2 * k)) y
    (setMany (List.replicate (2 * x.length) 0)
      (((List.range x.length).map (fun k => 0 + 2 * k)).zip x))
    (nodup_affine 1 2 _ (by omega)) i (by rw [length_affine]; exact hi) (h ▸ hi)
    (by rw [getD_affine _ _ _ _ hi, setMany_length, List.length_replicate]; omega)
  rw [getD_affine _ _ _ _ hi] at h2
  have e : 1 + 2 * i = 2 * i + 1 := by omega
  rw [e] at h2
  exact h2

lemma to_polyline_eval (x y : List ℚ) (h : y.length = x.length) :
    to_polyline x y = some ⟨x.length, interleaveBuf x y⟩ := by
  unfold to_polyline
  have hne : ¬ (x.length ≠ y.length) := by omega
  simp only [if_neg hne, QPolygonF_mk_natCast, Option.bind_eq_bind, Option.some_bind,
    List.length_replicate, sliceIndices_even, sliceIndices_odd]
  rw [assignSlice_eq _ _ _ (by rw [length_affine]), Option.some_bind,
    assignSlice_eq _ _ _ (by rw [length_affine]; exact h), Option.some_bind]
  rfl

lemma to_polyline_none (x y : List ℚ) (h : x.length ≠ y.length) :
    to_polyline x y = none := by
  unfold to_polyline
  simp only [if_pos h]

/-- Claim C1: for equal-length inputs of length n, `to_polyline` and
`series_to_polyline` return the same polyline of n points whose flat
coordinate buffer has length 2n, with buffer position 2i holding x i and
buffer position 2i+1 holding y i, for every i < n. -/
theorem C1_interleave (x y : List ℚ) (h : x.length = y.length) :
    ∃ p : Polyline, to_polyline x y = some p ∧ series_to_polyline x y = some p ∧
      p.size = x.length ∧ p.buffer.length = 2 * x.length ∧
      ∀ i, i < x.length → p.buffer[2 * i]? = x[i]? ∧ p.buffer[2 * i + 1]? = y[i]? := by
  refine ⟨⟨x.length, interleaveBuf x y⟩, to_polyline_eval x y h.symm,
    series_to_polyline_eval x y h.symm, rfl, interleaveBuf_length x y, ?_⟩
  intro i hi
  exact ⟨interleaveBuf_even x y i hi, interleaveBuf_odd x y h.symm i hi⟩

/-- Witness for C1 at x = [1, 2], y = [5, 6]. -/
theorem C1_interleave_witness :
    ∃ p : Polyline,
      to_polyline [1, 2] [5, 6] = some p ∧ series_to_polyline [1, 2] [5, 6] = some p ∧
      p.size = ([1, 2] : List ℚ).length ∧ p.buffer.length = 2 * ([1, 2] : List ℚ).length ∧
      ∀ i, i < ([1, 2] : List ℚ).length →
        p.buffer[2 * i]? = (([1, 2] : List ℚ))[i]? ∧
        p.buffer[2 * i + 1]? = (([5, 6] : List ℚ))[i]? :=
  C1_interleave [1, 2] [5, 6] rfl

/-- Claim C4: `to_polyline` raises (`none`) exactly when the input lengths
differ; on equal lengths it returns a polyline. -/
theorem C4_to_polyline_error_iff (x y : List ℚ) :
    (to_polyline x y = none ↔ x.length ≠ y.length) ∧
    (x.length = y.length → ∃ p, to_polyline x y = some p) := by
  refine ⟨⟨?_, to_polyline_none x y⟩, ?_⟩
  · intro hnone hlen
    rw [to_polyline_eval x y hlen.symm] at hnone
    exact Option.noConfusion hnone
  · intro hlen
    exact ⟨_, to_polyline_eval x y hlen.symm⟩

/-- Witness for C4 at x = [1, 2], y = [5, 6]. -/
theorem C4_to_polyline_error_iff_witness :
    (to_polyline [1, 2] [5, 6] = none ↔ ([1, 2] : List ℚ).length ≠ ([5, 6] : List ℚ).length) ∧
    (([1, 2] : List ℚ).length = ([5, 6] : List ℚ).length →
      ∃ p, to_polyline [1, 2] [5, 6] = some p) :=
  C4_to_polyline_error_iff [1, 2] [5, 6]

/-! ### `series_to_polystep`: evaluation on well-formed input -/

lemma QPolygonF_mk_step (n : Nat) (h : 1 ≤ n) :
    QPolygonF_mk (2 * (n : Int) - 1) = some (List.replicate (2 * (2 * n - 1)) 0) := by
  unfold QPolygonF_mk
  rw [if_neg (by omega)]
  have e : (2 * (n : Int) - 1).toNat = 2 * n - 1 := by omega
  rw [e]

lemma series_to_polystep_eval (x y : List ℚ) (h : y.length = x.length)
    (hn : 1 ≤ x.length) :
    series_to_polystep x y = some ⟨2 * x.length - 1, stepBuf x y⟩ := by
  unfold series_to_polystep
  have hcast : ((2 * x.length - 1 : Nat) : Int) = 2 * (x.length : Int) - 1 := by omega
  simp only [QPolygonF_mk_step x.length hn, Option.bind_eq_bind, Option.some_bind,
    List.length_replicate]
  rw [← hcast]
  rw [sliceIndices_even (2 * x.length - 1), sliceIndices_odd (2 * x.length - 1)]
  simp only [length_affine]
  rw [sliceIndices_view_even (2 * x.length - 1), sliceIndices_view_odd (2 * x.length - 1)]
  have e1 : (2 * x.length - 1 + 1) / 2 = x.length := by omega
  have e2 : (2 * x.length - 1) / 2 = x.length - 1 := by omega
  rw [e1, e2]
  rw [composeIdx_affine 0 2 (2 * x.length - 1) 0 2 x.length (by intro k hk; omega),
    composeIdx_affine 1 2 (2 * x.length - 1) 0 2 x.length (by intro k hk; omega),
    composeIdx_affine 0 2 (2 * x.length - 1) 1 2 (x.length - 1) (by intro k hk; omega),
    composeIdx_affine 1 2 (2 * x.length - 1) 1 2 (x.length - 1) (by intro k hk; omega)]
  rw [assignSlice_eq _ _ _ (by rw [length_affine]), Option.some_bind,
    assignSlice_eq _ _ _ (by rw [length_affine]; exact h), Option.some_bind,
    assignSlice_eq _ _ _ (by rw [length_affine, List.length_drop]), Option.some_bind,
    assignSlice_eq _ _ _ (by rw [length_affine, List.length_dropLast]; omega),
    Option.some_bind]
  simp only [Int.toNat_natCast]
  have c1 : ∀ c : Nat, (List.range c).map (fun k => 0 + 2 * 0 + 2 * 2 * k)
      = (List.range c).map (fun k => 0 + 4 * k) :=
    fun c => List.map_congr_left (fun k _ => by ring)
  have c2 : ∀ c : Nat, (List.range c).map (fun k => 1 + 2 * 0 + 2 * 2 * k)
      = (List.range c).map (fun k => 1 + 4 * k) :=
    fun c => List.map_congr_left (fun k _ => by ring)
  have c3 : ∀ c : Nat, (List.range c).map (fun k => 0 + 2 * 1 + 2 * 2 * k)
      = (List.range c).map (fun k => 2 + 4 * k) :=
    fun c => List.map_congr_left (fun k _ => by ring)
  have c4 : ∀ c : Nat, (List.range c).map (fun k => 1 + 2 * 1 + 2 * 2 * k)
      = (List.range c).map (fun k => 3 + 4 * k) :=
    fun c => List.map_congr_left (fun k _ => by ring)
  rw [c1, c2, c3, c4]
  rfl

lemma notMem_affine_zip (a s c : Nat) (vals : List ℚ) (j : Nat)
    (h : ∀ k, k < c → a + s * k ≠ j) :
    ∀ p ∈ ((List.range c).map (fun k => a + s * k)).zip vals, p.1 ≠ j := by
  rintro ⟨u, w⟩ hp
  have hu := (List.of_mem_zip hp).1
  rw [mem_affine] at hu
  obtain ⟨k, hk, rfl⟩ := hu
  exact h k hk

lemma setMany_affine_read (a s c : Nat) (hs : 0 < s) (vals mem : List ℚ) (k : Nat)
    (hk : k < c) (hkv : k < vals.length) (hmem : a + s * k < mem.length) :
    (setMany mem (((List.range c).map (fun j => a + s * j)).zip vals))[a + s * k]?
      = vals[k]? := by
  have h := setMany_zip_getElem? ((List.range c).map (fun j => a + s * j)) vals mem
    (nodup_affine a s c hs) k (by rw [length_affine]; exact hk) hkv
    (by rw [getD_affine _ _ _ _ hk]; exact hmem)
  rw [getD_affine _ _ _ _ hk] at h
  exact h

lemma stepBuf_length (x y : List ℚ) :
    (stepBuf x y).length = 2 * (2 * x.length - 1) := by
  unfold stepBuf
  rw [setMany_length, setMany_length, setMany_length, setMany_length, List.length_replicate]

lemma stepBuf_at0 (x y : List ℚ) (k : Nat) (hk : k < x.length) :
    (stepBuf x y)[4 * k]? = x[k]? := by
  unfold stepBuf
  rw [setMany_getElem?_notMem _ _ _ (notMem_affine_zip 3 4 _ _ _ (fun j hj => by omega)),
    setMany_getElem?_notMem _ _ _ (notMem_affine_zip 2 4 _ _ _ (fun j hj => by omega)),
    setMany_getElem?_notMem _ _ _ (notMem_affine_zip 1 4 _ _ _ (fun j hj => by omega))]
  have h := setMany_affine_read 0 4 x.length (by omega) x
    (List.replicate (2 * (2 * x.length - 1)) 0) k hk hk
    (by rw [List.length_replicate]; omega)
  have e : 0 + 4 * k = 4 * k := by omega
  rw [e] at h
  exact h

lemma stepBuf_at1 (x y : List ℚ) (h : y.length = x.length) (k : Nat) (hk : k < x.length) :
    (stepBuf x y)[4 * k + 1]? = y[k]? := by
  unfold stepBuf
  rw [setMany_getElem?_notMem _ _ _ (notMem_affine_zip 3 4 _ _ _ (fun j hj => by omega)),
    setMany_getElem?_notMem _ _ _ (notMem_affine_zip 2 4 _ _ _ (fun j hj => by omega))]
  have h2 := setMany_affine_read 1 4 x.length (by omega) y
    (setMany (List.replicate (2 * (2 * x.length - 1)) 0)
      (((List.range x.length).map (fun k => 0 + 4 * k)).zip x))
    k hk (h ▸ hk)
    (by rw [setMany_length, List.length_replicate]; omega)
  have e : 1 + 4 * k = 4 * k + 1 := by omega
  rw [e] at h2
  exact h2

lemma stepBuf_at2 (x y : List ℚ) (k : Nat) (hk : k + 1 < x.length) :
    (stepBuf x y)[4 * k + 2]? = x[k + 1]? := by
  unfold stepBuf
  rw [setMany_getElem?_notMem _ _ _ (notMem_affine_zip 3 4 _ _ _ (fun j hj => by omega))]
  have h2 := setMany_affine_read 2 4 (x.length - 1) (by omega) (x.drop 1)
    (setMany (setMany (List.replicate (2 * (2 * x.length - 1)) 0)
        (((List.range x.length).map (fun k => 0 + 4 * k)).zip x))
      (((List.range x.length).map (fun k => 1 + 4 * k)).zip y))
    k (by omega) (by rw [List.length_drop]; omega)
    (by rw [setMany_length, setMany_length, List.length_replicate]; omega)
  rw [List.getElem?_drop] at h2
  have e : 2 + 4 * k = 4 * k + 2 := by omega
  have e2 : 1 + k = k + 1 := by omega
  rw [e, e2] at h2
  exact h2

lemma stepBuf_at3 (x y : List ℚ) (h : y.length = x.length) (k : Nat)
    (hk : k + 1 < x.length) :
    (stepBuf x y)[4 * k + 3]? = y[k]? := by
  unfold stepBuf
  have h2 := setMany_affine_read 3 4 (x.length - 1) (by omega) y.dropLast
    (setMany (setMany (setMany (List.replicate (2 * (2 * x.length - 1)) 0)
          (((List.range x.length).map (fun k => 0 + 4 * k)).zip x))
        (((List.range x.length).map (fun k => 1 + 4 * k)).zip y))
      (((List.range (x.length - 1)).map (fun k => 2 + 4 * k)).zip (x.drop 1)))
    k (by omega) (by rw [List.length_dropLast]; omega)
    (by rw [setMany_length, setMany_length, setMany_length, List.length_replicate]; omega)
  rw [List.getElem?_dropLast, if_pos (by omega)] at h2
  have e : 3 + 4 * k = 4 * k + 3 := by omega
  rw [e] at h2
  exact h2

/-- Claim C2: for equal-length inputs of length n ≥ 1, `series_to_polystep`
returns a polyline of 2n−1 points: point 2k is (x k, y k) for k < n, and
point 2k+1 is (x (k+1), y k) for k+1 < n (coordinates of point j sit at
buffer offsets 2j and 2j+1). -/
theorem C2_polystep_staircase (x y : List ℚ) (h : x.length = y.length)
    (hn : 1 ≤ x.length) :
    ∃ p : Polyline, series_to_polystep x y = some p ∧
      p.size = 2 * x.length - 1 ∧ p.buffer.length = 2 * (2 * x.length - 1) ∧
      (∀ k, k < x.length → p.buffer[4 * k]? = x[k]? ∧ p.buffer[4 * k + 1]? = y[k]?) ∧
      (∀ k, k + 1 < x.length →
        p.buffer[4 * k + 2]? = x[k + 1]? ∧ p.buffer[4 * k + 3]? = y[k]?) := by
  refine ⟨⟨2 * x.length - 1, stepBuf x y⟩, series_to_polystep_eval x y h.symm hn, rfl,
    stepBuf_length x y, ?_, ?_⟩
  · intro k hk
    exact ⟨stepBuf_at0 x y k hk, stepBuf_at1 x y h.symm k hk⟩
  · intro k hk
    exact ⟨stepBuf_at2 x y k hk, stepBuf_at3 x y h.symm k hk⟩

/-- Witness for C2 at x = [1, 2, 3], y = [5, 6, 7]. -/
theorem C2_polystep_staircase_witness :
    ∃ p : Polyline, series_to_polystep [1, 2, 3] [5, 6, 7] = some p ∧
      p.size = 2 * ([1, 2, 3] : List ℚ).length - 1 ∧
      p.buffer.length = 2 * (2 * ([1, 2, 3] : List ℚ).length - 1) ∧
      (∀ k, k < ([1, 2, 3] : List ℚ).length →
        p.buffer[4 * k]? = (([1, 2, 3] : List ℚ))[k]? ∧
        p.buffer[4 * k + 1]? = (([5, 6, 7] : List ℚ))[k]?) ∧
      (∀ k, k + 1 < ([1, 2, 3] : List ℚ).length →
        p.buffer[4 * k + 2]? = (([1, 2, 3] : List ℚ))[k + 1]? ∧
        p.buffer[4 * k + 3]? = (([5, 6, 7] : List ℚ))[k]?) :=
  C2_polystep_staircase [1, 2, 3] [5, 6, 7] rfl (by decide)

/-! ### Mismatched-length behaviour -/

lemma series_to_polyline_none (x y : List ℚ) (hne : y.length ≠ x.length)
    (h1 : y.length ≠ 1) :
    series_to_polyline x y = none := by
  unfold series_to_polyline
  simp only [QPolygonF_mk_natCast, Option.bind_eq_bind, Option.some_bind,
    List.length_replicate, sliceIndices_even, sliceIndices_odd]
  rw [assignSlice_eq _ _ _ (by rw [length_affine]), Option.some_bind,
    assignSlice_none _ _ _ (by rw [length_affine]; exact hne) h1]
  rfl

lemma series_to_polyline_bcast (x y : List ℚ) (h1 : y.length = 1)
    (hne : y.length ≠ x.length) :
    series_to_polyline x y = some ⟨x.length,
      setMany (setMany (List.replicate (2 * x.length) 0)
          (((List.range x.length).map (fun k => 0 + 2 * k)).zip x))
        (((List.range x.length).map (fun k => 1 + 2 * k)).zip
          (List.replicate x.length (y.headD 0)))⟩ := by
  unfold series_to_polyline
  simp only [QPolygonF_mk_natCast, Option.bind_eq_bind, Option.some_bind,
    List.length_replicate, sliceIndices_even, sliceIndices_odd]
  rw [assignSlice_eq _ _ _ (by rw [length_affine]), Option.some_bind,
    assignSlice_bcast _ _ _ h1 (by rw [length_affine]; omega), Option.some_bind,
    length_affine]

lemma series_to_polystep_none (x y : List ℚ) (hne : x.length ≠ y.length) :
    series_to_polystep x y = none := by
  rcases Nat.eq_zero_or_pos x.length with h0 | hpos
  · unfold series_to_polystep
    have hc : QPolygonF_mk (2 * (x.length : Int) - 1) = none := by
      unfold QPolygonF_mk
      rw [if_pos (by omega)]
    simp only [hc, Option.bind_eq_bind, Option.none_bind]
  · have hcast : ((2 * x.length - 1 : Nat) : Int) = 2 * (x.length : Int) - 1 := by omega
    unfold series_to_polystep
    simp only [QPolygonF_mk_step x.length hpos, Option.bind_eq_bind, Option.some_bind,
      List.length_replicate]
    rw [← hcast]
    rw [sliceIndices_even (2 * x.length - 1), sliceIndices_odd (2 * x.length - 1)]
    simp only [length_affine]
    rw [sliceIndices_view_even (2 * x.length - 1), sliceIndices_view_odd (2 * x.length - 1)]
    have e1 : (2 * x.length - 1 + 1) / 2 = x.length := by omega
    have e2 : (2 * x.length - 1) / 2 = x.length - 1 := by omega
    rw [e1, e2]
    rw [composeIdx_affine 0 2 (2 * x.length - 1) 0 2 x.length (by intro k hk; omega),
      composeIdx_affine 1 2 (2 * x.length - 1) 0 2 x.length (by intro k hk; omega),
      composeIdx_affine 0 2 (2 * x.length - 1) 1 2 (x.length - 1) (by intro k hk; omega),
      composeIdx_affine 1 2 (2 * x.length - 1) 1 2 (x.length - 1) (by intro k hk; omega)]
    by_cases h1 : y.length = 1
    · -- numpy broadcasts y over the second write, but the fourth write
      -- (`ydata[:-1]`, an empty array) cannot fill the n-1 odd staircase slots
      have hx2 : 2 ≤ x.length := by omega
      rw [assignSlice_eq _ _ _ (by rw [length_affine]), Option.some_bind,
        assignSlice_bcast _ _ _ h1 (by rw [length_affine]; omega), Option.some_bind,
        assignSlice_eq _ _ _ (by rw [length_affine, List.length_drop]), Option.some_bind,
        assignSlice_none _ _ _ (by rw [length_affine, List.length_dropLast]; omega)
          (by rw [List.length_dropLast]; omega)]
      rfl
    · rw [assignSlice_eq _ _ _ (by rw [length_affine]), Option.some_bind,
        assignSlice_none _ _ _ (by rw [length_affine]; omega) h1]
      rfl

/-- Claim C3, counterexample: `series_to_polyline` does *not* fail on every
mismatched-length pair: with a length-1 y input, NumPy broadcasts the
single y value over all points and a polyline is returned. -/
theorem C3_counterexample :
    series_to_polyline [1, 2] [5] = some ⟨2, [1, 5, 2, 5]⟩ := by decide

/-- Claim C3, amended: on mismatched-length inputs `series_to_polystep`
always fails; `series_to_polyline` fails except when y has length exactly
1, in which case it succeeds and broadcasts the single y value to every
point's y coordinate. -/
theorem C3_amended_mismatch :
    (∀ x y : List ℚ, x.length ≠ y.length → series_to_polystep x y = none) ∧
    (∀ x y : List ℚ, x.length ≠ y.length → y.length ≠ 1 →
      series_to_polyline x y = none) ∧
    (∀ x y : List ℚ, x.length ≠ y.length → y.length = 1 →
      ∃ p : Polyline, series_to_polyline x y = some p ∧ p.size = x.length ∧
        ∀ i, i < x.length → p.buffer[2 * i + 1]? = y[0]?) := by
  refine ⟨series_to_polystep_none, fun x y hne h1 => series_to_polyline_none x y (by omega) h1, ?_⟩
  intro x y hne h1
  refine ⟨_, series_to_polyline_bcast x y h1 (by omega), rfl, ?_⟩
  intro i hi
  have hy0 : y[0]? = some (y.headD 0) := by
    cases y with
    | nil => simp at h1
    | cons a t => simp
  have h2 := setMany_affine_read 1 2 x.length (by omega)
    (List.replicate x.length (y.headD 0))
    (setMany (List.replicate (2 * x.length) 0)
      (((List.range x.length).map (fun k => 0 + 2 * k)).zip x))
    i hi (by rw [List.length_replicate]; exact hi)
    (by rw [setMany_length, List.length_replicate]; omega)
  rw [List.getElem?_replicate_of_lt hi] at h2
  have e : 1 + 2 * i = 2 * i + 1 := by omega
  rw [e] at h2
  rw [h2, hy0]

/-- Witness for the amended C3 at concrete mismatched inputs. -/
theorem C3_amended_mismatch_witness :
    series_to_polystep [1, 2] [5] = none ∧
    series_to_polyline [1, 2, 3] [5, 6] = none ∧
    ∃ p : Polyline, series_to_polyline [1, 2] [5] = some p ∧
      p.size = ([1, 2] : List ℚ).length ∧
      ∀ i, i < ([1, 2] : List ℚ).length →
        p.buffer[2 * i + 1]? = (([5] : List ℚ))[0]? :=
  ⟨C3_amended_mismatch.1 [1, 2] [5] (by decide),
    C3_amended_mismatch.2.1 [1, 2, 3] [5, 6] (by decide) (by decide),
    C3_amended_mismatch.2.2 [1, 2] [5] (by decide) (by decide)⟩

/-! ### Mouse handler lemmas -/

lemma mousePressEvent_chart (s : TestChartView) (e : MouseEvent) :
    (s.mousePressEvent e).chart = s.chart := by
  unfold TestChartView.mousePressEvent
  split_ifs <;> rfl

lemma mouseReleaseEvent_some (s : TestChartView) (e : MouseEvent) (s' : TestChartView)
    (h : s.mouseReleaseEvent e = some s') :
    s'.chart.x_min = s.chart.x_min ∧ s'.chart.x_max = s.chart.x_max ∧
    s'.chart.y_min = s.chart.y_min ∧ s'.chart.y_max = s.chart.y_max ∧
    s'.chart.scroll_x = s.chart.scroll_x ∧ s'.chart.scroll_y = s.chart.scroll_y ∧
    s'.pan_active = false ∧ s'.zoom_active = false ∧ s'.rubber_band_active = false := by
  unfold TestChartView.mouseReleaseEvent at h
  simp only [Option.bind_eq_bind] at h
  split at h
  · split at h
    · simp only [Option.some_bind] at h
      split at h
      · obtain rfl := Option.some.inj h
        exact ⟨rfl, rfl, rfl, rfl, rfl, rfl, rfl, rfl, rfl⟩
      · obtain rfl := Option.some.inj h
        refine ⟨rfl, rfl, rfl, rfl, rfl, rfl, rfl, rfl, ?_⟩
        next hr => simpa using hr
    · simp only [Option.none_bind] at h
      exact Option.noConfusion h
  · simp only [Option.some_bind] at h
    split at h
    · obtain rfl := Option.some.inj h
      exact ⟨rfl, rfl, rfl, rfl, rfl, rfl, rfl, rfl, rfl⟩
    · obtain rfl := Option.some.inj h
      refine ⟨rfl, rfl, rfl, rfl, rfl, rfl, rfl, rfl, ?_⟩
      next hr => simpa using hr

lemma mouseMoveEvent_some_recorded (s : TestChartView) (e : MouseEvent)
    (s' : TestChartView) (h : s.mouseMoveEvent e = some s') :
    s'.chart.x_min = s.chart.x_min ∧ s'.chart.x_max = s.chart.x_max ∧
    s'.chart.y_min = s.chart.y_min ∧ s'.chart.y_max = s.chart.y_max := by
  unfold TestChartView.mouseMoveEvent at h
  split at h
  · split at h
    · exact Option.noConfusion h
    · obtain rfl := Option.some.inj h
      exact ⟨rfl, rfl, rfl, rfl⟩
  · split at h
    · split at h
      · exact Option.noConfusion h
      · obtain rfl := Option.some.inj h
        exact ⟨rfl, rfl, rfl, rfl⟩
    · obtain rfl := Option.some.inj h
      exact ⟨rfl, rfl, rfl, rfl⟩

lemma processEvent_recorded (s : TestChartView) (k : EventKind) (e : MouseEvent)
    (s' : TestChartView) (h : s.processEvent k e = some s') :
    s'.chart.x_min = s.chart.x_min ∧ s'.chart.x_max = s.chart.x_max ∧
    s'.chart.y_min = s.chart.y_min ∧ s'.chart.y_max = s.chart.y_max := by
  cases k with
  | press =>
    obtain rfl := Option.some.inj h
    rw [mousePressEvent_chart]
    exact ⟨rfl, rfl, rfl, rfl⟩
  | release =>
    have h2 := mouseReleaseEvent_some s e s' h
    exact ⟨h2.1, h2.2.1, h2.2.2.1, h2.2.2.2.1⟩
  | move => exact mouseMoveEvent_some_recorded s e s' h

lemma processEvents_recorded (es : List (EventKind × MouseEvent)) :
    ∀ s s' : TestChartView, s.processEvents es = some s' →
      s'.chart.x_min = s.chart.x_min ∧ s'.chart.x_max = s.chart.x_max ∧
      s'.chart.y_min = s.chart.y_min ∧ s'.chart.y_max = s.chart.y_max := by
  induction es with
  | nil =>
    intro s s' h
    obtain rfl := Option.some.inj h
    exact ⟨rfl, rfl, rfl, rfl⟩
  | cons ke es ih =>
    intro s s' h
    unfold TestChartView.processEvents at h
    cases hp : s.processEvent ke.1 ke.2 with
    | none =>
      rw [hp] at h
      exact Option.noConfusion h
    | some s1 =>
      rw [hp] at h
      have h1 := processEvent_recorded s ke.1 ke.2 s1 hp
      have h2 := ih s1 s' h
      exact ⟨h2.1.trans h1.1, h2.2.1.trans h1.2.1, h2.2.2.1.trans h1.2.2.1,
        h2.2.2.2.trans h1.2.2.2⟩

/-- Claim C5: after `createDefaultAxes` has recorded the initial ranges,
a middle-button release resets both axes to those recorded ranges, no
matter which pans and zooms (or other events) happened in between. -/
theorem C5_middle_click_resets_axes (c0 : TestChart) (ax ay : Axis)
    (v0 s : TestChartView) (es : List (EventKind × MouseEvent)) (e : MouseEvent)
    (hv : v0.chart = c0.createDefaultAxes ax ay)
    (hs : v0.processEvents es = some s)
    (hb : e.button = MouseButton.middle) :
    ∃ s', s.mouseReleaseEvent e = some s' ∧ s'.chart.axisX = ax ∧ s'.chart.axisY = ay := by
  have hrec := processEvents_recorded es v0 s hs
  have hx1 : s.chart.x_min = some ax.min := by rw [hrec.1, hv]; rfl
  have hx2 : s.chart.x_max = some ax.max := by rw [hrec.2.1, hv]; rfl
  have hy1 : s.chart.y_min = some ay.min := by rw [hrec.2.2.1, hv]; rfl
  have hy2 : s.chart.y_max = some ay.max := by rw [hrec.2.2.2, hv]; rfl
  unfold TestChartView.mouseReleaseEvent
  rw [if_pos hb, hx1, hx2, hy1, hy2]
  refine ⟨_, rfl, ?_, ?_⟩ <;> by_cases hrb : s.rubber_band_active <;> simp [hrb]

/-- Witness for C5: a pan run, then a middle-button release. -/
theorem C5_middle_click_resets_axes_witness :
    ∃ s', demoState.mouseReleaseEvent ⟨MouseButton.middle, sampleMods, 5, 5⟩ = some s' ∧
      s'.chart.axisX = sampleAxis ∧ s'.chart.axisY = sampleAxis :=
  C5_middle_click_resets_axes sampleChart0 sampleAxis sampleAxis sampleView demoState
    demoEvents ⟨MouseButton.middle, sampleMods, 5, 5⟩ rfl (by decide) rfl

/-- Claim C9: every mouse release that completes leaves panning, zooming
and the rubber band off, and a subsequent mouse move then changes
nothing at all. -/
theorem C9_release_clears_interaction (s : TestChartView) (e e2 : MouseEvent)
    (s' : TestChartView) (h : s.mouseReleaseEvent e = some s') :
    s'.pan_active = false ∧ s'.zoom_active = false ∧ s'.rubber_band_active = false ∧
    s'.mouseMoveEvent e2 = some s' := by
  obtain ⟨-, -, -, -, -, -, hp, hz, hr⟩ := mouseReleaseEvent_some s e s' h
  refine ⟨hp, hz, hr, ?_⟩
  unfold TestChartView.mouseMoveEvent
  simp [hp, hz]

/-- Witness for C9 at a release of the middle button after a pan run. -/
theorem C9_release_clears_interaction_witness :
    ({ demoState with pan_active := false } : TestChartView).pan_active = false ∧
    ({ demoState with pan_active := false } : TestChartView).zoom_active = false ∧
    ({ demoState with pan_active := false } : TestChartView).rubber_band_active = false ∧
    ({ demoState with pan_active := false } : TestChartView).mouseMoveEvent
      ⟨MouseButton.left, sampleMods, 7, 7⟩ = some { demoState with pan_active := false } :=
  C9_release_clears_interaction demoState ⟨MouseButton.middle, sampleMods, 5, 5⟩
    ⟨MouseButton.left, sampleMods, 7, 7⟩ { demoState with pan_active := false } (by decide)

/-- The expression `np.sign(d) * min(abs(d), 10)` is exactly clamping to [-10, 10]. -/
lemma clampDelta_eq_clamp (d : Int) : clampDelta d = max (-10) (min 10 d) := by
  unfold clampDelta
  rcases lt_trichotomy d 0 with h | h | h
  · rw [Int.sign_eq_neg_one_of_neg h]
    omega
  · subst h
    decide
  · rw [Int.sign_eq_one_of_pos h]
    omega

lemma zoom_shift_bound (t0 tf : ℚ) (c : Int) (hc1 : -10 ≤ c) (hc2 : c ≤ 10) :
    |(tf - t0) * (c : ℚ) * (1 / 100)| ≤ |tf - t0| / 10 := by
  have habs : |(c : ℚ)| ≤ 10 := by
    rw [abs_le]
    constructor
    · exact_mod_cast hc1
    · exact_mod_cast hc2
  calc |(tf - t0) * (c : ℚ) * (1 / 100)|
      = |tf - t0| * |(c : ℚ)| * (1 / 100) := by
        rw [abs_mul, abs_mul]
        norm_num
    _ ≤ |tf - t0| * 10 * (1 / 100) := by
        have h0 := abs_nonneg (tf - t0)
        nlinarith [abs_nonneg (c : ℚ)]
    _ = |tf - t0| / 10 := by ring

/-- Claim C6: while right-button zoom is active (and pan is not), a mouse
move clamps each tracker delta to magnitude 10 (X axis uses dx, Y axis
uses −dy) and moves each axis endpoint inwards by
`(tf − t0) * delta * 0.01`; consequently each endpoint moves by at most
a tenth of the current axis span. -/
theorem C6_zoom_axis_relative (s : TestChartView) (e : MouseEvent) (x0 y0 : Int)
    (hz : s.zoom_active = true) (hp : s.pan_active = false)
    (hpos : s.mouse_tracker.pos = some (x0, y0)) :
    ∃ s', s.mouseMoveEvent e = some s' ∧
      s'.chart.axisX.min = s.chart.axisX.min +
        (s.chart.axisX.max - s.chart.axisX.min) *
          ((max (-10) (min 10 (e.x - x0)) : Int) : ℚ) * (1 / 100) ∧
      s'.chart.axisX.max = s.chart.axisX.max -
        (s.chart.axisX.max - s.chart.axisX.min) *
          ((max (-10) (min 10 (e.x - x0)) : Int) : ℚ) * (1 / 100) ∧
      s'.chart.axisY.min = s.chart.axisY.min +
        (s.chart.axisY.max - s.chart.axisY.min) *
          ((max (-10) (min 10 (-(e.y - y0))) : Int) : ℚ) * (1 / 100) ∧
      s'.chart.axisY.max = s.chart.axisY.max -
        (s.chart.axisY.max - s.chart.axisY.min) *
          ((max (-10) (min 10 (-(e.y - y0))) : Int) : ℚ) * (1 / 100) ∧
      |s'.chart.axisX.min - s.chart.axisX.min| ≤ |s.chart.axisX.max - s.chart.axisX.min| / 10 ∧
      |s'.chart.axisX.max - s.chart.axisX.max| ≤ |s.chart.axisX.max - s.chart.axisX.min| / 10 ∧
      |s'.chart.axisY.min - s.chart.axisY.min| ≤ |s.chart.axisY.max - s.chart.axisY.min| / 10 ∧
      |s'.chart.axisY.max - s.chart.axisY.max| ≤ |s.chart.axisY.max - s.chart.axisY.min| / 10 := by
  have htr : s.mouse_tracker.track e.x e.y = some ((e.x - x0, e.y - y0),
      { total_dx := s.mouse_tracker.total_dx + (e.x - x0),
        total_dy := s.mouse_tracker.total_dy + (e.y - y0),
        pos := some (e.x, e.y) }) := by
    unfold MouseTracker.track
    rw [hpos]
  unfold TestChartView.mouseMoveEvent
  rw [if_neg (by simp [hp]), if_pos (by simp [hz]), htr]
  refine ⟨_, rfl, ?_, ?_, ?_, ?_, ?_, ?_, ?_, ?_⟩ <;>
    simp only [zoomAxis, clampDelta_eq_clamp]
  · rw [show ∀ a b : ℚ, a + b - a = b from fun a b => by ring]
    exact zoom_shift_bound _ _ _ (le_max_left _ _) (by omega)
  · rw [show ∀ a b : ℚ, a - b - a = -b from fun a b => by ring, abs_neg]
    exact zoom_shift_bound _ _ _ (le_max_left _ _) (by omega)
  · rw [show ∀ a b : ℚ, a + b - a = b from fun a b => by ring]
    exact zoom_shift_bound _ _ _ (le_max_left _ _) (by omega)
  · rw [show ∀ a b : ℚ, a - b - a = -b from fun a b => by ring, abs_neg]
    exact zoom_shift_bound _ _ _ (le_max_left _ _) (by omega)

/-- A zooming state: the pan run of `demoEvents`, with the right button
considered pressed instead. -/
def zoomDemoState : TestChartView :=
  { demoState with pan_active := false, zoom_active := true }

def zoomDemoEvent : MouseEvent := ⟨MouseButton.right, sampleMods, 5, 5⟩

/-- Witness for C6 at a concrete zooming state. -/
theorem C6_zoom_axis_relative_witness :
    ∃ s', zoomDemoState.mouseMoveEvent zoomDemoEvent = some s' ∧
      s'.chart.axisX.min = zoomDemoState.chart.axisX.min +
        (zoomDemoState.chart.axisX.max - zoomDemoState.chart.axisX.min) *
          ((max (-10) (min 10 (zoomDemoEvent.x - 3)) : Int) : ℚ) * (1 / 100) ∧
      s'.chart.axisX.max = zoomDemoState.chart.axisX.max -
        (zoomDemoState.chart.axisX.max - zoomDemoState.chart.axisX.min) *
          ((max (-10) (min 10 (zoomDemoEvent.x - 3)) : Int) : ℚ) * (1 / 100) ∧
      s'.chart.axisY.min = zoomDemoState.chart.axisY.min +
        (zoomDemoState.chart.axisY.max - zoomDemoState.chart.axisY.min) *
          ((max (-10) (min 10 (-(zoomDemoEvent.y - 4))) : Int) : ℚ) * (1 / 100) ∧
      s'.chart.axisY.max = zoomDemoState.chart.axisY.max -
        (zoomDemoState.chart.axisY.max - zoomDemoState.chart.axisY.min) *
          ((max (-10) (min 10 (-(zoomDemoEvent.y - 4))) : Int) : ℚ) * (1 / 100) ∧
      |s'.chart.axisX.min - zoomDemoState.chart.axisX.min|
        ≤ |zoomDemoState.chart.axisX.max - zoomDemoState.chart.axisX.min| / 10 ∧
      |s'.chart.axisX.max - zoomDemoState.chart.axisX.max|
        ≤ |zoomDemoState.chart.axisX.max - zoomDemoState.chart.axisX.min| / 10 ∧
      |s'.chart.axisY.min - zoomDemoState.chart.axisY.min|
        ≤ |zoomDemoState.chart.axisY.max - zoomDemoState.chart.axisY.min| / 10 ∧
      |s'.chart.axisY.max - zoomDemoState.chart.axisY.max|
        ≤ |zoomDemoState.chart.axisY.max - zoomDemoState.chart.axisY.min| / 10 :=
  C6_zoom_axis_relative zoomDemoState zoomDemoEvent 3 4 rfl rfl rfl

/-- Claim C7, counterexample: a left press with shift *and* control held
activates panning and leaves the rubber band off: the handler compares
`event.modifiers()` against exactly `Qt.ShiftModifier`, so "press with
the shift modifier ⇒ rubber band, no panning" fails. -/
theorem C7_counterexample :
    (sampleView.mousePressEvent ⟨MouseButton.left, ⟨true, true, false⟩, 2, 3⟩).pan_active
        = true ∧
    (sampleView.mousePressEvent
        ⟨MouseButton.left, ⟨true, true, false⟩, 2, 3⟩).rubber_band_active = false := by
  decide

/-- Claim C7, amended: a left press whose modifier state is anything other
than exactly shift (even shift combined with other modifiers) activates
panning and starts the tracker at the press position; a left press
whose modifier state is exactly shift enables the rubber band and does
not activate panning; while panning is active, a move scrolls the chart
by (−dx, dy) and re-tracks the position. -/
theorem C7_amended_pan_and_rubber_band (s : TestChartView) (e : MouseEvent)
    (he : e.button = MouseButton.left) :
    (e.modifiers ≠ Modifiers.shiftOnly →
      (s.mousePressEvent e).pan_active = true ∧
      (s.mousePressEvent e).mouse_tracker.pos = some (e.x, e.y) ∧
      (s.mousePressEvent e).rubber_band_active = s.rubber_band_active) ∧
    (e.modifiers = Modifiers.shiftOnly →
      (s.mousePressEvent e).rubber_band_active = true ∧
      (s.mousePressEvent e).pan_active = s.pan_active ∧
      (s.mousePressEvent e).mouse_tracker = s.mouse_tracker) ∧
    (∀ (s2 : TestChartView) (e2 : MouseEvent) (x0 y0 : Int),
      s2.pan_active = true → s2.mouse_tracker.pos = some (x0, y0) →
      ∃ s2', s2.mouseMoveEvent e2 = some s2' ∧
        s2'.chart.scroll_x = s2.chart.scroll_x - (e2.x - x0) ∧
        s2'.chart.scroll_y = s2.chart.scroll_y + (e2.y - y0) ∧
        s2'.mouse_tracker.pos = some (e2.x, e2.y)) := by
  refine ⟨?_, ?_, ?_⟩
  · intro hm
    unfold TestChartView.mousePressEvent
    rw [if_pos he, if_neg hm]
    exact ⟨rfl, rfl, rfl⟩
  · intro hm
    unfold TestChartView.mousePressEvent
    rw [if_pos he, if_pos hm]
    exact ⟨rfl, rfl, rfl⟩
  · intro s2 e2 x0 y0 hpan hpos
    have htr : s2.mouse_tracker.track e2.x e2.y = some ((e2.x - x0, e2.y - y0),
        { total_dx := s2.mouse_tracker.total_dx + (e2.x - x0),
          total_dy := s2.mouse_tracker.total_dy + (e2.y - y0),
          pos := some (e2.x, e2.y) }) := by
      unfold MouseTracker.track
      rw [hpos]
    unfold TestChartView.mouseMoveEvent
    rw [if_pos (by simp [hpan]), htr]
    refine ⟨_, rfl, ?_, ?_, rfl⟩
    · show s2.chart.scroll_x + -(e2.x - x0) = s2.chart.scroll_x - (e2.x - x0)
      ring
    · rfl

/-- Witness for the amended C7: plain left press pans, exact-shift left
press rubber-bands, and a pan move scrolls by (−dx, dy). -/
theorem C7_amended_pan_and_rubber_band_witness :
    ((⟨MouseButton.left, sampleMods, 0, 0⟩ : MouseEvent).modifiers ≠ Modifiers.shiftOnly →
      (sampleView.mousePressEvent ⟨MouseButton.left, sampleMods, 0, 0⟩).pan_active = true ∧
      (sampleView.mousePressEvent ⟨MouseButton.left, sampleMods, 0, 0⟩).mouse_tracker.pos
        = some ((⟨MouseButton.left, sampleMods, 0, 0⟩ : MouseEvent).x,
            (⟨MouseButton.left, sampleMods, 0, 0⟩ : MouseEvent).y) ∧
      (sampleView.mousePressEvent ⟨MouseButton.left, sampleMods, 0, 0⟩).rubber_band_active
        = sampleView.rubber_band_active) ∧
    ((⟨MouseButton.left, sampleMods, 0, 0⟩ : MouseEvent).modifiers = Modifiers.shiftOnly →
      (sampleView.mousePressEvent ⟨MouseButton.left, sampleMods, 0, 0⟩).rubber_band_active
        = true ∧
      (sampleView.mousePressEvent ⟨MouseButton.left, sampleMods, 0, 0⟩).pan_active
        = sampleView.pan_active ∧
      (sampleView.mousePressEvent ⟨MouseButton.left, sampleMods, 0, 0⟩).mouse_tracker
        = sampleView.mouse_tracker) ∧
    (∀ (s2 : TestChartView) (e2 : MouseEvent) (x0 y0 : Int),
      s2.pan_active = true → s2.mouse_tracker.pos = some (x0, y0) →
      ∃ s2', s2.mouseMoveEvent e2 = some s2' ∧
        s2'.chart.scroll_x = s2.chart.scroll_x - (e2.x - x0) ∧
        s2'.chart.scroll_y = s2.chart.scroll_y + (e2.y - y0) ∧
        s2'.mouse_tracker.pos = some (e2.x, e2.y)) :=
  C7_amended_pan_and_rubber_band sampleView ⟨MouseButton.left, sampleMods, 0, 0⟩ rfl

/-! ### MouseTracker telescoping -/

lemma trackAll_spec (es : List (Int × Int)) :
    ∀ tdx tdy x0 y0 : Int,
      ∃ ds tf, MouseTracker.trackAll ⟨tdx, tdy, some (x0, y0)⟩ es = some (ds, tf) ∧
        tf.total_dx = tdx + ((es.getLastD (x0, y0)).1 - x0) ∧
        tf.total_dy = tdy + ((es.getLastD (x0, y0)).2 - y0) ∧
        tf.pos = some (es.getLastD (x0, y0)) ∧
        (ds.map Prod.fst).sum = (es.getLastD (x0, y0)).1 - x0 ∧
        (ds.map Prod.snd).sum = (es.getLastD (x0, y0)).2 - y0 := by
  induction es with
  | nil =>
    intro tdx tdy x0 y0
    exact ⟨[], _, rfl, by simp, by simp, rfl, by simp, by simp⟩
  | cons p es ih =>
    obtain ⟨px, py⟩ := p
    intro tdx tdy x0 y0
    obtain ⟨ds, tf, h1, h2, h3, h4, h5, h6⟩ :=
      ih (tdx + (px - x0)) (tdy + (py - y0)) px py
    refine ⟨(px - x0, py - y0) :: ds, tf, ?_, ?_, ?_, ?_, ?_, ?_⟩
    · have hstep : MouseTracker.trackAll (⟨tdx, tdy, some (x0, y0)⟩ : MouseTracker)
            ((px, py) :: es)
          = match MouseTracker.trackAll
              (⟨tdx + (px - x0), tdy + (py - y0), some (px, py)⟩ : MouseTracker) es with
            | none => none
            | some (ds, tf) => some ((px - x0, py - y0) :: ds, tf) := rfl
      rw [hstep, h1]
    · rw [List.getLastD_cons, h2]
      omega
    · rw [List.getLastD_cons, h3]
      omega
    · rw [List.getLastD_cons, h4]
    · rw [List.getLastD_cons]
      simp only [List.map_cons, List.sum_cons]
      rw [h5]
      omega
    · rw [List.getLastD_cons]
      simp only [List.map_cons, List.sum_cons]
      rw [h6]
      omega

/-- Claim C8: after `reset()` and `start` at (x0, y0), any sequence of
`track` calls succeeds, and `totals()` telescopes: it equals the final
position minus the start position, which is also the componentwise sum
of the deltas the `track` calls returned. -/
theorem C8_tracker_telescopes (t0 : MouseTracker) (x0 y0 : Int)
    (es : List (Int × Int)) :
    ∃ ds tf, ((t0.reset).start x0 y0).trackAll es = some (ds, tf) ∧
      tf.totals = ((es.getLastD (x0, y0)).1 - x0, (es.getLastD (x0, y0)).2 - y0) ∧
      tf.totals = ((ds.map Prod.fst).sum, (ds.map Prod.snd).sum) := by
  have he : (t0.reset).start x0 y0 = (⟨0, 0, some (x0, y0)⟩ : MouseTracker) := rfl
  rw [he]
  obtain ⟨ds, tf, h1, h2, h3, h4, h5, h6⟩ := trackAll_spec es 0 0 x0 y0
  refine ⟨ds, tf, h1, ?_, ?_⟩
  · unfold MouseTracker.totals
    simp only [Prod.mk.injEq]
    constructor <;> omega
  · unfold MouseTracker.totals
    simp only [Prod.mk.injEq]
    refine ⟨?_, ?_⟩
    · rw [h2, h5]
      omega
    · rw [h3, h6]
      omega

/-! ### Empty input to the step converter -/

lemma series_to_polystep_nil (y : List ℚ) : series_to_polystep [] y = none := rfl

/-- Claim C10: on empty x input `series_to_polystep` computes the point
count 2·0−1 = −1, the polyline construction itself fails, and `add_data`
inherits the failure; the 2n−1 postcondition holds precisely under the
implicit precondition n ≥ 1. -/
theorem C10_polystep_empty_fails :
    QPolygonF_mk (2 * ((([] : List ℚ).length : Int)) - 1) = none ∧
    (∀ y : List ℚ, series_to_polystep [] y = none) ∧
    (∀ (w : TestWindow) (y : List ℚ), w.add_data [] y = none) ∧
    (∀ x y : List ℚ, x.length = y.length → 1 ≤ x.length →
      ∃ p, series_to_polystep x y = some p ∧ p.size = 2 * x.length - 1) := by
  refine ⟨rfl, fun y => rfl, fun w y => rfl, fun x y h h1 => ?_⟩
  exact ⟨_, series_to_polystep_eval x y h.symm h1, rfl⟩

/-- Witness for C10 at x = [1, 2], y = [3, 4]. -/
theorem C10_polystep_empty_fails_witness :
    ∃ p, series_to_polystep [1, 2] [3, 4] = some p ∧
      p.size = 2 * ([1, 2] : List ℚ).length - 1 :=
  C10_polystep_empty_fails.2.2.2 [1, 2] [3, 4] rfl (by decide)

/-! ### Concrete evaluations validating the embedding -/
example : series_to_polyline [1, 2] [5, 6] = some ⟨2, [1, 5, 2, 6]⟩ := by decide
example : to_polyline [1, 2] [5, 6] = some ⟨2, [1, 5, 2, 6]⟩ := by decide
example : to_polyline [1, 2] [5] = none := by decide
example : series_to_polyline [1, 2] [5] = some ⟨2, [1, 5, 2, 5]⟩ := by decide
example : series_to_polyline [1, 2] [5, 6, 7] = none := by decide
example : series_to_polystep [1, 2] [5, 6] = some ⟨3, [1, 5, 2, 5, 2, 6]⟩ := by decide
example : series_to_polystep [1, 2, 3] [5, 6, 7] = some ⟨5, [1, 5, 2, 5, 2, 6, 3, 6, 3, 7]⟩ := by decide
example : series_to_polystep [] [] = none := by decide
example : series_to_polystep [1, 2] [5] = none := by decide
example : series_to_polystep [1] [5, 6] = none := by decide
example : series_to_polystep [1, 2, 3] [5] = none := by decide
example : series_to_polyline [] [] = some ⟨0, []⟩ := by decide
example : series_to_polyline [] [5] = some ⟨0, []⟩ := by decide
example : sampleView.processEvents demoEvents = some demoState := by decide
example : demoState.mouseReleaseEvent ⟨MouseButton.middle, sampleMods, 5, 5⟩ =
    some { demoState with pan_active := false } := by decide
example : (sampleView.mousePressEvent ⟨MouseButton.left, ⟨true, true, false⟩, 2, 3⟩).pan_active
    = true := by decide
example : (sampleView.mousePressEvent ⟨MouseButton.left, ⟨true, false, false⟩, 2, 3⟩).pan_active
    = false := by decide
example : clampDelta 25 = 10 ∧ clampDelta (-25) = -10 ∧ clampDelta 7 = 7 ∧ clampDelta 0 = 0 := by
  decide
example : zoomAxis ⟨0, 10⟩ 5 = ⟨1/2, 19/2⟩ := by
  have h : clampDelta 5 = 5 := by decide
  unfold zoomAxis
  rw [h]
  simp only [Axis.mk.injEq]
  norm_num

end QuantCharts
